import Mathlib

/-!
Verification of the k8s-node-rebooter remediation script
(src/restart_notready.py) through a shallow embedding in Lean.

The embedding mirrors the Python source:
* `NodeCondition`, `K8sNode` model the node objects returned by the
  orchestration API (`list_node`).
* `get_notready_nodes` mirrors `NodeRebooter.get_notready_nodes`
  (lines 66-93): a scan over each node condition list that appends the
  node name and breaks at the first condition with type "Ready" and
  status "False".
* `singleAttempt` mirrors one body execution of
  `NodeRebooter.reboot_vm_on_esxi` (lines 107-141): the try/except/finally
  block, with the external world (key loading, connection, command
  execution, exit status, error stream) supplied by an `AttemptOutcome`
  oracle.  The `finally` clause closing the session is the trailing
  `sessionClosed` event on every path.
* `retryLoop` / `reboot_vm_on_esxi` mirror the tenacity decorator
  `retry(stop=stop_after_attempt(3), wait=wait_fixed(10))` on line 95:
  up to 3 total attempts of `singleAttempt`, a 10-unit wait after each
  failed attempt, the final exception re-raised.  Invocation start times
  are collected so the temporal claims can be stated.
* `processNode`, `execLoop`, `reboot_notready_nodes` mirror
  `NodeRebooter.reboot_notready_nodes` (lines 143-178), including the
  `KeyError` raised when a mapping entry lacks the "esxi_host" or
  "vmid" field (lines 158-159): entries are modelled with optional
  fields and a missing field propagates as an error out of the loop.
* `main` mirrors `main` (lines 181-213): required-file checks, fatal
  errors before or during node listing, the early return when no node
  is not ready, and the conversion of any exception into exit code 1.
Log lines relevant to the claims are modelled as events; purely
informational log lines are abstracted away.
-/

namespace Rebooter

/-- One status condition of a node, as reported by the orchestration API.
Statuses are the literal strings "True", "False", "Unknown". -/
structure NodeCondition where
  type : String
  status : String
deriving DecidableEq, Repr

/-- A node returned by `list_node`: its metadata name and its status
condition list. -/
structure K8sNode where
  name : String
  conditions : List NodeCondition
deriving DecidableEq, Repr

/-- The inner loop of `get_notready_nodes` (lines 82-86): scan the
condition list and stop at the first condition with type "Ready" and
status "False"; return whether the node is appended. -/
def isNotReadyScan : List NodeCondition → Bool
  | [] => false
  | c :: rest =>
      if c.type = "Ready" ∧ c.status = "False" then true else isNotReadyScan rest

/-- Mirrors `NodeRebooter.get_notready_nodes` (lines 66-93): the names of
the nodes whose condition scan hits a Ready/False condition, in API
order. -/
def get_notready_nodes : List K8sNode → List String
  | [] => []
  | n :: rest =>
      if isNotReadyScan n.conditions then n.name :: get_notready_nodes rest
      else get_notready_nodes rest

/-- Modelled from the claim wording of C1 (not from the source): a scan
that short-circuits at the first condition of type "Ready" and includes
the node exactly when that first Ready condition has status "False". -/
def firstReadyFalse : List NodeCondition → Bool
  | [] => false
  | c :: rest =>
      if c.type = "Ready" then decide (c.status = "False") else firstReadyFalse rest

/-- Modelled from the claim wording of C1: the not-ready list under the
first-Ready-match-wins reading of the condition scan. -/
def get_notready_nodes_claimed : List K8sNode → List String
  | [] => []
  | n :: rest =>
      if firstReadyFalse n.conditions then n.name :: get_notready_nodes_claimed rest
      else get_notready_nodes_claimed rest

/-- A condition is a Ready/False condition. -/
def readyFalse (c : NodeCondition) : Bool := decide (c.type = "Ready" ∧ c.status = "False")

/-- A condition has type "Ready". -/
def isReadyCond (c : NodeCondition) : Bool := decide (c.type = "Ready")

lemma isNotReadyScan_eq_any (cs : List NodeCondition) :
    isNotReadyScan cs = cs.any readyFalse := by
  induction cs with
  | nil => rfl
  | cons c rest ih =>
      by_cases h : c.type = "Ready" ∧ c.status = "False"
      · simp [isNotReadyScan, readyFalse, h]
      · simp [isNotReadyScan, readyFalse, h, ih]

lemma scan_false_of_no_ready (cs : List NodeCondition)
    (h : cs.filter isReadyCond = []) : isNotReadyScan cs = false := by
  induction cs with
  | nil => rfl
  | cons c rest ih =>
      have hc : isReadyCond c = false := by
        by_contra hb
        have hb2 : isReadyCond c = true := by
          cases hx : isReadyCond c
          · exact absurd hx hb
          · rfl
        simp [List.filter_cons, hb2] at h
      have hty : ¬ c.type = "Ready" := by
        simpa [isReadyCond] using hc
      have hrest : rest.filter isReadyCond = [] := by
        simpa [List.filter_cons, hc] using h
      simp [isNotReadyScan, hty, ih hrest]

lemma scan_eq_first_of_unique (cs : List NodeCondition)
    (h : (cs.filter isReadyCond).length ≤ 1) :
    isNotReadyScan cs = firstReadyFalse cs := by
  induction cs with
  | nil => rfl
  | cons c rest ih =>
      by_cases hr : c.type = "Ready"
      · have hc : isReadyCond c = true := by simp [isReadyCond, hr]
        have hrest : rest.filter isReadyCond = [] := by
          have h2 : (c :: rest).filter isReadyCond = c :: rest.filter isReadyCond := by
            simp [List.filter_cons, hc]
          have h3 := h
          rw [h2, List.length_cons] at h3
          exact List.eq_nil_of_length_eq_zero (by omega)
        by_cases hs : c.status = "False"
        · simp [isNotReadyScan, firstReadyFalse, hr, hs]
        · have h0 : isNotReadyScan rest = false := scan_false_of_no_ready rest hrest
          simp [isNotReadyScan, firstReadyFalse, hr, hs, h0]
      · have hc : isReadyCond c = false := by simp [isReadyCond, hr]
        have h2 : (rest.filter isReadyCond).length ≤ 1 := by
          simpa [List.filter_cons, hc] using h
        simp [isNotReadyScan, firstReadyFalse, hr, ih h2]

/-- Concrete node with two Ready conditions, the first with status
True, the second with status False. -/
def dupReadyNode : K8sNode := ⟨"n1", [⟨"Ready", "True"⟩, ⟨"Ready", "False"⟩]⟩

/-- Claim C1 counterexample: on a node whose condition list is
[Ready/True, Ready/False] the code includes the node (the scan breaks
only at a condition that is both Ready and False, line 83), while the
claimed first-Ready-match-wins scan would stop at Ready/True and
exclude it; so the claimed description of the result differs from the
code, and a node having a Ready condition of status True does appear. -/
theorem notready_claim_counterexample :
    get_notready_nodes [dupReadyNode] = ["n1"] ∧
    get_notready_nodes_claimed [dupReadyNode] = [] ∧
    dupReadyNode.conditions = [⟨"Ready", "True"⟩, ⟨"Ready", "False"⟩] := by
  decide

/-- Claim C1 (amended): `get_notready_nodes` returns exactly the names
of the nodes having some condition of type "Ready" with status "False",
each such node contributing its name exactly once, in the API order;
the scan short-circuits at the first condition that is both of type
"Ready" and of status "False".  Under the stated expectation that each
node carries at most one "Ready" condition, this coincides with the
first-Ready-match-wins reading of the claim. -/
theorem notready_nodes_spec (nodes : List K8sNode) :
    get_notready_nodes nodes =
      (nodes.filter (fun n => n.conditions.any readyFalse)).map K8sNode.name ∧
    ((∀ n, n ∈ nodes → (n.conditions.filter isReadyCond).length ≤ 1) →
      get_notready_nodes nodes = get_notready_nodes_claimed nodes) := by
  constructor
  · induction nodes with
    | nil => rfl
    | cons n rest ih =>
        by_cases h : isNotReadyScan n.conditions = true
        · have hany : n.conditions.any readyFalse = true := by
            rw [← isNotReadyScan_eq_any]; exact h
          simp [get_notready_nodes, h, List.filter_cons, hany, ih]
        · have hany : n.conditions.any readyFalse = false := by
            rw [← isNotReadyScan_eq_any]
            cases hx : isNotReadyScan n.conditions
            · rfl
            · exact absurd hx h
          have hsc : isNotReadyScan n.conditions = false := by
            cases hx : isNotReadyScan n.conditions
            · rfl
            · exact absurd hx h
          simp [get_notready_nodes, hsc, List.filter_cons, hany, ih]
  · induction nodes with
    | nil => intro _; rfl
    | cons n rest ih =>
        intro hall
        have hn : (n.conditions.filter isReadyCond).length ≤ 1 :=
          hall n (List.mem_cons_self n rest)
        have hrest : ∀ m, m ∈ rest → (m.conditions.filter isReadyCond).length ≤ 1 :=
          fun m hm => hall m (List.mem_cons_of_mem n hm)
        rw [get_notready_nodes, get_notready_nodes_claimed,
          scan_eq_first_of_unique n.conditions hn, ih hrest]

/-- Witness for the amended claim C1 at a concrete node list with at
most one Ready condition per node. -/
theorem notready_nodes_spec_witness :
    get_notready_nodes [⟨"a", [⟨"Ready", "False"⟩]⟩, ⟨"b", [⟨"Ready", "True"⟩]⟩] =
      get_notready_nodes_claimed
        [⟨"a", [⟨"Ready", "False"⟩]⟩, ⟨"b", [⟨"Ready", "True"⟩]⟩] ∧
    get_notready_nodes [⟨"a", [⟨"Ready", "False"⟩]⟩, ⟨"b", [⟨"Ready", "True"⟩]⟩] = ["a"] :=
  ⟨(notready_nodes_spec
      [⟨"a", [⟨"Ready", "False"⟩]⟩, ⟨"b", [⟨"Ready", "True"⟩]⟩]).2 (by decide),
   by decide⟩

/-- Outcome of the external world for one execution of the body of
`reboot_vm_on_esxi` (lines 107-141): an exception while loading the
private key, an exception while connecting, an exception while
executing the command, or a completed command with its exit status and
error stream. -/
inductive AttemptOutcome where
  | keyError
  | connectError
  | execError
  | exec (exitCode : Nat) (stderrOut : String)
deriving DecidableEq, Repr

/-- Observable events of one attempt: session object created, remote
connection established, command executed, error stream read, session
closed. -/
inductive Event where
  | sessionOpened
  | connected (host : String)
  | commandExecuted (cmd : String)
  | stderrCaptured (s : String)
  | sessionClosed
deriving DecidableEq, Repr

/-- The management command of line 121. -/
def vimCmd (vmid : String) : String := "vim-cmd vmsvc/power.reset " ++ vmid

/-- The try block of `reboot_vm_on_esxi` (lines 110-139): result and
events of one attempt, before the finally clause runs. -/
def attemptBody (host vmid : String) (o : AttemptOutcome) : Except String Bool × List Event :=
  match o with
  | AttemptOutcome.keyError =>
      (Except.error "failed to load private key", [Event.sessionOpened])
  | AttemptOutcome.connectError =>
      (Except.error "failed to connect", [Event.sessionOpened])
  | AttemptOutcome.execError =>
      (Except.error "failed to execute command", [Event.sessionOpened, Event.connected host])
  | AttemptOutcome.exec code err =>
      if code = 0 then
        (Except.ok true,
         [Event.sessionOpened, Event.connected host, Event.commandExecuted (vimCmd vmid)])
      else
        (Except.error ("VM reboot failed with exit code " ++ toString code),
         [Event.sessionOpened, Event.connected host, Event.commandExecuted (vimCmd vmid),
          Event.stderrCaptured err])

/-- One full attempt of `reboot_vm_on_esxi` (lines 107-141): the try
block followed by the finally clause, which closes the session on every
path before the attempt ends or is retried. -/
def singleAttempt (host vmid : String) (o : AttemptOutcome) : Except String Bool × List Event :=
  ((attemptBody host vmid o).1, (attemptBody host vmid o).2 ++ [Event.sessionClosed])

/-- Whether an attempt outcome makes the attempt raise: every outcome
except a completed command with exit status 0. -/
def isFailure : AttemptOutcome → Bool
  | AttemptOutcome.exec 0 _ => false
  | _ => true

/-- The exception message an attempt raises on a failing outcome. -/
def errOf : AttemptOutcome → String
  | AttemptOutcome.keyError => "failed to load private key"
  | AttemptOutcome.connectError => "failed to connect"
  | AttemptOutcome.execError => "failed to execute command"
  | AttemptOutcome.exec code _ => "VM reboot failed with exit code " ++ toString code

lemma single_result (host vmid : String) (o : AttemptOutcome) :
    (singleAttempt host vmid o).1 =
      if isFailure o then Except.error (errOf o) else Except.ok true := by
  cases o with
  | keyError => rfl
  | connectError => rfl
  | execError => rfl
  | exec code err =>
      cases code with
      | zero => rfl
      | succ n => rfl

/-- The tenacity retry layer of line 95 around `singleAttempt`:
`idx` is the index of the current attempt, `fuel` the number of
attempts still allowed, `t` the current time.  On a raised attempt with
fuel left, wait 10 time units and retry; on the last allowed attempt
re-raise.  Returns the result, the concatenated events, and the list of
invocation start times. -/
def retryLoop (host vmid : String) (o : Nat → AttemptOutcome) :
    Nat → Nat → Nat → Except String Bool × List Event × List Nat
  | _, 0, _ => (Except.error "no attempt", [], [])
  | idx, fuel+1, t =>
      match (singleAttempt host vmid (o idx)).1 with
      | Except.ok b => (Except.ok b, (singleAttempt host vmid (o idx)).2, [t])
      | Except.error e =>
          match fuel with
          | 0 => (Except.error e, (singleAttempt host vmid (o idx)).2, [t])
          | f+1 =>
              ((retryLoop host vmid o (idx+1) (f+1) (t+10)).1,
               (singleAttempt host vmid (o idx)).2 ++
                 (retryLoop host vmid o (idx+1) (f+1) (t+10)).2.1,
               t :: (retryLoop host vmid o (idx+1) (f+1) (t+10)).2.2)

/-- Mirrors `reboot_vm_on_esxi` with its decorator
`retry(stop=stop_after_attempt(3), wait=wait_fixed(10))` (line 95):
up to 3 total attempts starting at time 0, supplied with the outcome
oracle `o` giving the world behaviour of each attempt. -/
def reboot_vm_on_esxi (host vmid : String) (o : Nat → AttemptOutcome) :
    Except String Bool × List Event × List Nat :=
  retryLoop host vmid o 0 3 0

/-- Number of consecutive raising attempts from index `idx` on, capped
at the second argument.  Depends only on which attempts fail, not on
the failure cause. -/
def leadFail (o : Nat → AttemptOutcome) : Nat → Nat → Nat
  | _, 0 => 0
  | idx, fuel+1 => if isFailure (o idx) then leadFail o (idx+1) fuel + 1 else 0

lemma retryLoop_ok_branch (host vmid : String) (o : Nat → AttemptOutcome)
    (idx fuel t : Nat) (hf : isFailure (o idx) = false) :
    retryLoop host vmid o idx (fuel+1) t =
      (Except.ok true, (singleAttempt host vmid (o idx)).2, [t]) := by
  have hr : (singleAttempt host vmid (o idx)).1 = Except.ok true := by
    rw [single_result, hf]
    rfl
  rw [retryLoop.eq_2, hr]

lemma retryLoop_fail_last (host vmid : String) (o : Nat → AttemptOutcome)
    (idx t : Nat) (hf : isFailure (o idx) = true) :
    retryLoop host vmid o idx 1 t =
      (Except.error (errOf (o idx)), (singleAttempt host vmid (o idx)).2, [t]) := by
  have hr : (singleAttempt host vmid (o idx)).1 = Except.error (errOf (o idx)) := by
    rw [single_result, hf]
    rfl
  rw [retryLoop.eq_2, hr]

lemma retryLoop_fail_step (host vmid : String) (o : Nat → AttemptOutcome)
    (idx f t : Nat) (hf : isFailure (o idx) = true) :
    retryLoop host vmid o idx (f+1+1) t =
      ((retryLoop host vmid o (idx+1) (f+1) (t+10)).1,
       (singleAttempt host vmid (o idx)).2 ++ (retryLoop host vmid o (idx+1) (f+1) (t+10)).2.1,
       t :: (retryLoop host vmid o (idx+1) (f+1) (t+10)).2.2) := by
  have hr : (singleAttempt host vmid (o idx)).1 = Except.error (errOf (o idx)) := by
    rw [single_result, hf]
    rfl
  rw [retryLoop.eq_2, hr]

lemma retry_master (host vmid : String) (o : Nat → AttemptOutcome) :
    ∀ fuel idx t,
      (retryLoop host vmid o idx (fuel+1) t).2.2 =
        List.range' t (min (fuel+1) (leadFail o idx (fuel+1) + 1)) 10 ∧
      (leadFail o idx (fuel+1) ≤ fuel →
        (retryLoop host vmid o idx (fuel+1) t).1 = Except.ok true) ∧
      (leadFail o idx (fuel+1) = fuel+1 →
        (retryLoop host vmid o idx (fuel+1) t).1 = Except.error (errOf (o (idx + fuel)))) := by
  intro fuel
  induction fuel with
  | zero =>
      intro idx t
      by_cases hf : isFailure (o idx) = true
      · have hl : leadFail o idx 1 = 1 := by simp [leadFail, hf]
        refine ⟨?_, ?_, ?_⟩
        · rw [retryLoop_fail_last host vmid o idx t hf, hl]
          rw [show (0+1) ⊓ (1+1) = 1 from by omega]
          rfl
        · intro hle
          rw [hl] at hle
          exact absurd hle (by omega)
        · intro _
          rw [retryLoop_fail_last host vmid o idx t hf]
          simp
      · have hf2 : isFailure (o idx) = false := by
          cases hx : isFailure (o idx)
          · rfl
          · exact absurd hx hf
        have hl : leadFail o idx 1 = 0 := by simp [leadFail, hf2]
        refine ⟨?_, ?_, ?_⟩
        · rw [retryLoop_ok_branch host vmid o idx 0 t hf2, hl]
          rw [show (0+1) ⊓ (0+1) = 1 from by omega]
          rfl
        · intro _
          rw [retryLoop_ok_branch host vmid o idx 0 t hf2]
        · intro h1
          rw [hl] at h1
          exact absurd h1 (by omega)
  | succ f ih =>
      intro idx t
      by_cases hf : isFailure (o idx) = true
      · have hl : leadFail o idx (f+1+1) = leadFail o (idx+1) (f+1) + 1 := by
          simp [leadFail, hf]
        obtain ⟨iht, ihok, iherr⟩ := ih (idx+1) (t+10)
        refine ⟨?_, ?_, ?_⟩
        · rw [retryLoop_fail_step host vmid o idx f t hf]
          show t :: (retryLoop host vmid o (idx+1) (f+1) (t+10)).2.2 = _
          rw [iht, hl]
          rw [show (f+1+1) ⊓ (leadFail o (idx+1) (f+1) + 1 + 1) =
              ((f+1) ⊓ (leadFail o (idx+1) (f+1) + 1)) + 1 from by omega]
          rw [List.range'_succ]
        · intro hle
          rw [hl] at hle
          rw [retryLoop_fail_step host vmid o idx f t hf]
          exact ihok (by omega)
        · intro heq
          rw [hl] at heq
          rw [retryLoop_fail_step host vmid o idx f t hf]
          show (retryLoop host vmid o (idx+1) (f+1) (t+10)).1 = _
          rw [iherr (by omega), show idx + 1 + f = idx + (f+1) from by omega]
      · have hf2 : isFailure (o idx) = false := by
          cases hx : isFailure (o idx)
          · rfl
          · exact absurd hx hf
        have hl : leadFail o idx (f+1+1) = 0 := by simp [leadFail, hf2]
        refine ⟨?_, ?_, ?_⟩
        · rw [retryLoop_ok_branch host vmid o idx (f+1) t hf2, hl]
          rw [show (f+1+1) ⊓ (0+1) = 1 from by omega]
          rfl
        · intro _
          rw [retryLoop_ok_branch host vmid o idx (f+1) t hf2]
        · intro h1
          rw [hl] at h1
          exact absurd h1 (by omega)

lemma leadFail_congr (o o2 : Nat → AttemptOutcome) :
    ∀ fuel idx, (∀ j, j < fuel → isFailure (o (idx + j)) = isFailure (o2 (idx + j))) →
      leadFail o idx fuel = leadFail o2 idx fuel := by
  intro fuel
  induction fuel with
  | zero => intro idx _; rfl
  | succ f ih =>
      intro idx h
      have h0 : isFailure (o idx) = isFailure (o2 idx) := by
        have := h 0 (by omega)
        simpa using this
      have hrec : ∀ j, j < f → isFailure (o (idx + 1 + j)) = isFailure (o2 (idx + 1 + j)) := by
        intro j hj
        have := h (j + 1) (by omega)
        rwa [show idx + (j + 1) = idx + 1 + j from by omega] at this
      by_cases hf : isFailure (o idx) = true
      · simp [leadFail, hf, ← h0, ih (idx+1) hrec]
      · have hf2 : isFailure (o idx) = false := by
          cases hx : isFailure (o idx)
          · rfl
          · exact absurd hx hf
        simp [leadFail, hf2, ← h0]

lemma leadFail_of_all_fail (o : Nat → AttemptOutcome) :
    ∀ fuel idx, (∀ j, j < fuel → isFailure (o (idx + j)) = true) →
      leadFail o idx fuel = fuel := by
  intro fuel
  induction fuel with
  | zero => intro idx _; rfl
  | succ f ih =>
      intro idx h
      have h0 : isFailure (o idx) = true := by
        have := h 0 (by omega)
        simpa using this
      have hrec : ∀ j, j < f → isFailure (o (idx + 1 + j)) = true := by
        intro j hj
        have := h (j + 1) (by omega)
        rwa [show idx + (j + 1) = idx + 1 + j from by omega] at this
      simp [leadFail, h0, ih (idx+1) hrec]

/-- Claim C2: per node-level remediation attempt, the remote reset
sequence is invoked at most 3 times; the invocation start times are an
arithmetic progression with step exactly 10, so no invocation starts
less than 10 time units after the previous failed one; attempt `i` is
invoked exactly when fewer than 3 invocations happened before it and
all previous attempts raised, whatever the raised cause was; and the
invocation schedule depends only on which attempts fail, never on the
failure cause. -/
theorem reboot_retry_policy (host vmid : String) (o : Nat → AttemptOutcome) :
    ((reboot_vm_on_esxi host vmid o).2.2).length ≤ 3 ∧
    ((reboot_vm_on_esxi host vmid o).2.2).length = min 3 (leadFail o 0 3 + 1) ∧
    (∀ i a b, ((reboot_vm_on_esxi host vmid o).2.2)[i]? = some a →
      ((reboot_vm_on_esxi host vmid o).2.2)[i+1]? = some b → b = a + 10) ∧
    (∀ o2 : Nat → AttemptOutcome, (∀ i, i < 3 → isFailure (o i) = isFailure (o2 i)) →
      (reboot_vm_on_esxi host vmid o).2.2 = (reboot_vm_on_esxi host vmid o2).2.2) := by
  have hm := (retry_master host vmid o 2 0 0).1
  have htimes : (reboot_vm_on_esxi host vmid o).2.2 =
      List.range' 0 (min 3 (leadFail o 0 3 + 1)) 10 := hm
  refine ⟨?_, ?_, ?_, ?_⟩
  · rw [htimes, List.length_range']
    exact Nat.min_le_left _ _
  · rw [htimes, List.length_range']
  · intro i a b ha hb
    rw [htimes] at ha hb
    by_cases h1 : i + 1 < min 3 (leadFail o 0 3 + 1)
    · have h0 : i < min 3 (leadFail o 0 3 + 1) := by omega
      rw [List.getElem?_range' 0 10 h0] at ha
      rw [List.getElem?_range' 0 10 h1] at hb
      have ha2 : a = 0 + 10 * i := by exact (Option.some_inj.mp ha).symm
      have hb2 : b = 0 + 10 * (i + 1) := by exact (Option.some_inj.mp hb).symm
      omega
    · have hlen : (List.range' 0 (min 3 (leadFail o 0 3 + 1)) 10).length =
          min 3 (leadFail o 0 3 + 1) := List.length_range' _ _ _
      have : (List.range' 0 (min 3 (leadFail o 0 3 + 1)) 10)[i+1]? = none := by
        rw [List.getElem?_eq_none]
        omega
      rw [this] at hb
      exact absurd hb (by simp)
  · intro o2 hsame
    have hl : leadFail o 0 3 = leadFail o2 0 3 := by
      apply leadFail_congr
      intro j hj
      simpa using hsame j hj
    have hm2 : (reboot_vm_on_esxi host vmid o2).2.2 =
        List.range' 0 (min 3 (leadFail o2 0 3 + 1)) 10 :=
      (retry_master host vmid o2 2 0 0).1
    rw [htimes, hm2, hl]

/-- Witness for claim C2 at the all-attempts-fail oracle: three
invocations at times 0, 10, 20, and the instantiated policy theorem. -/
theorem reboot_retry_policy_witness :
    (reboot_vm_on_esxi "10.0.0.5" "42" (fun _ => AttemptOutcome.connectError)).2.2 =
      [0, 10, 20] ∧
    ((reboot_vm_on_esxi "10.0.0.5" "42" (fun _ => AttemptOutcome.connectError)).2.2).length ≤ 3 :=
  ⟨rfl, (reboot_retry_policy "10.0.0.5" "42" (fun _ => AttemptOutcome.connectError)).1⟩

/-- Claim C8: on every exit path of a single reset attempt the remote
session is closed before the attempt ends — the event trace of one
attempt always starts with the session being opened and ends with the
session being closed, and the session is closed exactly once in it. -/
theorem session_always_closed (host vmid : String) (o : AttemptOutcome) :
    (singleAttempt host vmid o).2.head? = some Event.sessionOpened ∧
    (singleAttempt host vmid o).2.getLast? = some Event.sessionClosed ∧
    ((singleAttempt host vmid o).2.filter
      (fun e => decide (e = Event.sessionClosed))).length = 1 := by
  cases o with
  | keyError => refine ⟨rfl, ?_, rfl⟩; exact List.getLast?_concat _
  | connectError => refine ⟨rfl, ?_, rfl⟩; exact List.getLast?_concat _
  | execError => refine ⟨rfl, ?_, rfl⟩; exact List.getLast?_concat _
  | exec code err =>
      cases code with
      | zero => refine ⟨rfl, ?_, rfl⟩; exact List.getLast?_concat _
      | succ n => refine ⟨rfl, ?_, rfl⟩; exact List.getLast?_concat _

/-- Claim C9: a single reset attempt returns normally exactly when the
remote command exit status is 0, in which case it returns True; on a
non-zero exit status it captures the error stream and raises the
exit-code exception, so it never returns a non-success value
normally. -/
theorem single_attempt_success_iff_zero_exit (host vmid : String) (o : AttemptOutcome) :
    ((∃ b, (singleAttempt host vmid o).1 = Except.ok b) ↔ (∃ s, o = AttemptOutcome.exec 0 s)) ∧
    (∀ b, (singleAttempt host vmid o).1 = Except.ok b → b = true) ∧
    (∀ code err, o = AttemptOutcome.exec code err → code ≠ 0 →
      (singleAttempt host vmid o).1 =
        Except.error ("VM reboot failed with exit code " ++ toString code) ∧
      Event.stderrCaptured err ∈ (singleAttempt host vmid o).2) := by
  refine ⟨⟨?_, ?_⟩, ?_, ?_⟩
  · rintro ⟨b, hb⟩
    rw [single_result] at hb
    by_cases hf : isFailure o = true
    · rw [hf] at hb
      exact absurd hb (by simp)
    · have hf2 : isFailure o = false := by
        cases hx : isFailure o
        · rfl
        · exact absurd hx hf
      cases o with
      | keyError => exact absurd hf2 (by simp [isFailure])
      | connectError => exact absurd hf2 (by simp [isFailure])
      | execError => exact absurd hf2 (by simp [isFailure])
      | exec code err =>
          cases code with
          | zero => exact ⟨err, rfl⟩
          | succ n => exact absurd hf2 (by simp [isFailure])
  · rintro ⟨s, hs⟩
    subst hs
    exact ⟨true, rfl⟩
  · intro b hb
    rw [single_result] at hb
    by_cases hf : isFailure o = true
    · rw [hf] at hb
      exact absurd hb (by simp)
    · have hf2 : isFailure o = false := by
        cases hx : isFailure o
        · rfl
        · exact absurd hx hf
      rw [hf2] at hb
      simpa using (Except.ok.inj hb).symm
  · intro code err ho hc
    subst ho
    cases code with
    | zero => exact absurd rfl hc
    | succ n =>
        constructor
        · rw [single_result]
          rfl
        · simp [singleAttempt, attemptBody]

/-- Witness for claim C9 at a concrete non-zero exit outcome. -/
theorem single_attempt_success_iff_zero_exit_witness :
    (singleAttempt "10.0.0.5" "42" (AttemptOutcome.exec 1 "boom")).1 =
      Except.error ("VM reboot failed with exit code " ++ toString 1) ∧
    Event.stderrCaptured "boom" ∈ (singleAttempt "10.0.0.5" "42" (AttemptOutcome.exec 1 "boom")).2 :=
  (single_attempt_success_iff_zero_exit "10.0.0.5" "42"
    (AttemptOutcome.exec 1 "boom")).2.2 1 "boom" rfl (by decide)

/-- One entry of the node to VM mapping JSON file.  The JSON object of
a node may lack the "esxi_host" or the "vmid" key, so both fields are
optional; indexing a missing key raises a KeyError in the source
(lines 158-159). -/
structure VmEntry where
  esxi_host : Option String
  vmid : Option String
deriving DecidableEq, Repr

/-- Observable events of `reboot_notready_nodes` (lines 143-178):
the per-node warning for an unmapped node (line 154), the per-node
attempt log (line 161), the events of the remote reset operation, the
per-node success and failure logs (lines 169, 171, 174), and the final
summary log (lines 176-178) with its success count and total count. -/
inductive ExecEvent where
  | skippedUnmapped (node : String)
  | attemptingReboot (node host vmid : String)
  | remote (node : String) (ev : Event)
  | nodeSucceeded (node : String)
  | nodeFailedNoRaise (node : String)
  | nodeFailed (node : String) (err : String)
  | summary (succeeded total : Nat)
deriving DecidableEq, Repr

/-- The body of one iteration of the loop of `reboot_notready_nodes`
(lines 152-174) for one node name: the unmapped check (lines 153-155),
the two field accesses that raise a KeyError when the field is missing
(lines 158-159), and the guarded call of the remote reset operation
(lines 165-174), whose raised exception is caught and logged.  Returns
the events of the iteration and either the contribution to the success
count or the uncaught KeyError. -/
def processNode (map : List (String × VmEntry)) (O : String → Nat → AttemptOutcome)
    (node : String) : List ExecEvent × Except String Nat :=
  match map.lookup node with
  | none => ([ExecEvent.skippedUnmapped node], Except.ok 0)
  | some vm_info =>
      match vm_info.esxi_host with
      | none => ([], Except.error "KeyError: esxi_host")
      | some esxi_host =>
          match vm_info.vmid with
          | none => ([], Except.error "KeyError: vmid")
          | some vmid =>
              match (reboot_vm_on_esxi esxi_host vmid (O node)).1 with
              | Except.ok success =>
                  if success then
                    (ExecEvent.attemptingReboot node esxi_host vmid ::
                      ((reboot_vm_on_esxi esxi_host vmid (O node)).2.1.map
                        (ExecEvent.remote node) ++ [ExecEvent.nodeSucceeded node]),
                     Except.ok 1)
                  else
                    (ExecEvent.attemptingReboot node esxi_host vmid ::
                      ((reboot_vm_on_esxi esxi_host vmid (O node)).2.1.map
                        (ExecEvent.remote node) ++ [ExecEvent.nodeFailedNoRaise node]),
                     Except.ok 0)
              | Except.error e =>
                  (ExecEvent.attemptingReboot node esxi_host vmid ::
                    ((reboot_vm_on_esxi esxi_host vmid (O node)).2.1.map
                      (ExecEvent.remote node) ++ [ExecEvent.nodeFailed node e]),
                   Except.ok 0)

/-- The loop of `reboot_notready_nodes` (lines 150-174): iterate
`processNode` over the node list, accumulating events and the success
count; an uncaught KeyError aborts the loop at once, discarding the
remaining nodes. -/
def execLoop (map : List (String × VmEntry)) (O : String → Nat → AttemptOutcome) :
    List String → List ExecEvent × Except String Nat
  | [] => ([], Except.ok 0)
  | n :: rest =>
      match (processNode map O n).2 with
      | Except.error e => ((processNode map O n).1, Except.error e)
      | Except.ok c =>
          match (execLoop map O rest).2 with
          | Except.error e =>
              ((processNode map O n).1 ++ (execLoop map O rest).1, Except.error e)
          | Except.ok c2 =>
              ((processNode map O n).1 ++ (execLoop map O rest).1, Except.ok (c + c2))

/-- Mirrors `reboot_notready_nodes` (lines 143-178): run the loop and,
when it completes, emit the single summary log with the success count
and the length of the full not-ready list; if the loop raised, the
exception propagates and no summary is emitted. -/
def reboot_notready_nodes (map : List (String × VmEntry))
    (O : String → Nat → AttemptOutcome) (nodes : List String) :
    List ExecEvent × Except String Nat :=
  match (execLoop map O nodes).2 with
  | Except.error e => ((execLoop map O nodes).1, Except.error e)
  | Except.ok c =>
      ((execLoop map O nodes).1 ++ [ExecEvent.summary c nodes.length], Except.ok c)

/-- Whether an executor event is the final summary log. -/
def isSummary : ExecEvent → Bool
  | ExecEvent.summary _ _ => true
  | _ => false

/-- Whether an executor event is a per-node success log. -/
def isSuccessEvent : ExecEvent → Bool
  | ExecEvent.nodeSucceeded _ => true
  | _ => false

/-- The node a per-node executor event belongs to. -/
def eventNode : ExecEvent → Option String
  | ExecEvent.skippedUnmapped n => some n
  | ExecEvent.attemptingReboot n _ _ => some n
  | ExecEvent.remote n _ => some n
  | ExecEvent.nodeSucceeded n => some n
  | ExecEvent.nodeFailedNoRaise n => some n
  | ExecEvent.nodeFailed n _ => some n
  | ExecEvent.summary _ _ => none

lemma processNode_unmapped (map : List (String × VmEntry))
    (O : String → Nat → AttemptOutcome) (n : String) (hm : map.lookup n = none) :
    processNode map O n = ([ExecEvent.skippedUnmapped n], Except.ok 0) := by
  simp [processNode, hm]

lemma processNode_missing_host (map : List (String × VmEntry))
    (O : String → Nat → AttemptOutcome) (n : String) (ev : Option String)
    (hm : map.lookup n = some ⟨none, ev⟩) :
    processNode map O n = ([], Except.error "KeyError: esxi_host") := by
  simp [processNode, hm]

lemma processNode_missing_vmid (map : List (String × VmEntry))
    (O : String → Nat → AttemptOutcome) (n h : String)
    (hm : map.lookup n = some ⟨some h, none⟩) :
    processNode map O n = ([], Except.error "KeyError: vmid") := by
  simp [processNode, hm]

lemma processNode_mapped_ok (map : List (String × VmEntry))
    (O : String → Nat → AttemptOutcome) (n h v : String)
    (hm : map.lookup n = some ⟨some h, some v⟩)
    (hres : (reboot_vm_on_esxi h v (O n)).1 = Except.ok true) :
    processNode map O n =
      (ExecEvent.attemptingReboot n h v ::
        ((reboot_vm_on_esxi h v (O n)).2.1.map (ExecEvent.remote n) ++
          [ExecEvent.nodeSucceeded n]),
       Except.ok 1) := by
  simp [processNode, hm, hres]

lemma processNode_mapped_noraise (map : List (String × VmEntry))
    (O : String → Nat → AttemptOutcome) (n h v : String)
    (hm : map.lookup n = some ⟨some h, some v⟩)
    (hres : (reboot_vm_on_esxi h v (O n)).1 = Except.ok false) :
    processNode map O n =
      (ExecEvent.attemptingReboot n h v ::
        ((reboot_vm_on_esxi h v (O n)).2.1.map (ExecEvent.remote n) ++
          [ExecEvent.nodeFailedNoRaise n]),
       Except.ok 0) := by
  simp [processNode, hm, hres]

lemma processNode_mapped_err (map : List (String × VmEntry))
    (O : String → Nat → AttemptOutcome) (n h v e : String)
    (hm : map.lookup n = some ⟨some h, some v⟩)
    (hres : (reboot_vm_on_esxi h v (O n)).1 = Except.error e) :
    processNode map O n =
      (ExecEvent.attemptingReboot n h v ::
        ((reboot_vm_on_esxi h v (O n)).2.1.map (ExecEvent.remote n) ++
          [ExecEvent.nodeFailed n e]),
       Except.ok 0) := by
  simp [processNode, hm, hres]

lemma remote_filter_summary (n : String) (l : List Event) :
    ((l.map (ExecEvent.remote n)).filter isSummary) = [] := by
  induction l with
  | nil => rfl
  | cons a t ih => simp [isSummary, ih]

lemma remote_filter_success (n : String) (l : List Event) :
    ((l.map (ExecEvent.remote n)).filter isSuccessEvent) = [] := by
  induction l with
  | nil => rfl
  | cons a t ih => simp [isSuccessEvent, ih]

lemma processNode_events_node (map : List (String × VmEntry))
    (O : String → Nat → AttemptOutcome) (m : String) :
    ∀ e, e ∈ (processNode map O m).1 → eventNode e = some m := by
  intro e he
  rcases hm : map.lookup m with _ | entry
  · rw [processNode_unmapped map O m hm] at he
    simp at he
    subst he
    rfl
  · rcases entry with ⟨eh, ev2⟩
    rcases eh with _ | hh
    · rw [processNode_missing_host map O m ev2 hm] at he
      simp at he
    · rcases ev2 with _ | vv
      · rw [processNode_missing_vmid map O m hh hm] at he
        simp at he
      · rcases hres : (reboot_vm_on_esxi hh vv (O m)).1 with e2 | b
        · rw [processNode_mapped_err map O m hh vv e2 hm hres] at he
          simp at he
          rcases he with rfl | ⟨⟨x, _, rfl⟩ | rfl⟩
          · rfl
          · rfl
          · rfl
        · cases b
          · rw [processNode_mapped_noraise map O m hh vv hm hres] at he
            simp at he
            rcases he with rfl | ⟨⟨x, _, rfl⟩ | rfl⟩
            · rfl
            · rfl
            · rfl
          · rw [processNode_mapped_ok map O m hh vv hm hres] at he
            simp at he
            rcases he with rfl | ⟨⟨x, _, rfl⟩ | rfl⟩
            · rfl
            · rfl
            · rfl

lemma processNode_shape (map : List (String × VmEntry))
    (O : String → Nat → AttemptOutcome) (m : String) (c : Nat)
    (hp : (processNode map O m).2 = Except.ok c) :
    (processNode map O m).1.filter isSummary = [] ∧
    ((processNode map O m).1.filter isSuccessEvent).length = c := by
  rcases hm : map.lookup m with _ | entry
  · rw [processNode_unmapped map O m hm] at hp ⊢
    simp at hp
    subst hp
    exact ⟨rfl, rfl⟩
  · rcases entry with ⟨eh, ev2⟩
    rcases eh with _ | hh
    · rw [processNode_missing_host map O m ev2 hm] at hp
      simp at hp
    · rcases ev2 with _ | vv
      · rw [processNode_missing_vmid map O m hh hm] at hp
        simp at hp
      · rcases hres : (reboot_vm_on_esxi hh vv (O m)).1 with e2 | b
        · rw [processNode_mapped_err map O m hh vv e2 hm hres] at hp ⊢
          simp at hp
          subst hp
          constructor
          · simp [isSummary, List.filter_cons, List.filter_append,
              remote_filter_summary]
          · simp [isSuccessEvent, List.filter_cons, List.filter_append,
              remote_filter_success]
        · cases b
          · rw [processNode_mapped_noraise map O m hh vv hm hres] at hp ⊢
            simp at hp
            subst hp
            constructor
            · simp [isSummary, List.filter_cons, List.filter_append,
                remote_filter_summary]
            · simp [isSuccessEvent, List.filter_cons, List.filter_append,
                remote_filter_success]
          · rw [processNode_mapped_ok map O m hh vv hm hres] at hp ⊢
            simp at hp
            subst hp
            constructor
            · simp [isSummary, List.filter_cons, List.filter_append,
                remote_filter_summary]
            · simp [isSuccessEvent, List.filter_cons, List.filter_append,
                remote_filter_success]

lemma execLoop_events (map : List (String × VmEntry))
    (O : String → Nat → AttemptOutcome) :
    ∀ (nodes : List String) (e : ExecEvent), e ∈ (execLoop map O nodes).1 →
      ∃ m, m ∈ nodes ∧ e ∈ (processNode map O m).1 := by
  intro nodes
  induction nodes with
  | nil =>
      intro e he
      simp [execLoop] at he
  | cons n rest ih =>
      intro e he
      rw [execLoop.eq_2] at he
      rcases hp : (processNode map O n).2 with e2 | c1
      · simp only [hp] at he
        exact ⟨n, by simp, he⟩
      · simp only [hp] at he
        rcases hq : (execLoop map O rest).2 with e3 | c2
        · simp only [hq] at he
          rcases List.mem_append.mp he with h1 | h2
          · exact ⟨n, by simp, h1⟩
          · obtain ⟨m, hm1, hm2⟩ := ih e h2
            exact ⟨m, by simp [hm1], hm2⟩
        · simp only [hq] at he
          rcases List.mem_append.mp he with h1 | h2
          · exact ⟨n, by simp, h1⟩
          · obtain ⟨m, hm1, hm2⟩ := ih e h2
            exact ⟨m, by simp [hm1], hm2⟩

lemma reboot_notready_events (map : List (String × VmEntry))
    (O : String → Nat → AttemptOutcome) (nodes : List String) (e : ExecEvent)
    (he : e ∈ (reboot_notready_nodes map O nodes).1) :
    e ∈ (execLoop map O nodes).1 ∨ ∃ s t, e = ExecEvent.summary s t := by
  rcases hq : (execLoop map O nodes).2 with e2 | c
  · simp only [reboot_notready_nodes, hq] at he
    exact Or.inl he
  · simp only [reboot_notready_nodes, hq] at he
    rcases List.mem_append.mp he with h1 | h2
    · exact Or.inl h1
    · simp at h2
      exact Or.inr ⟨c, nodes.length, h2⟩

lemma execLoop_ok (map : List (String × VmEntry))
    (O : String → Nat → AttemptOutcome) :
    ∀ (nodes : List String) (c : Nat), (execLoop map O nodes).2 = Except.ok c →
      (execLoop map O nodes).1.filter isSummary = [] ∧
      ((execLoop map O nodes).1.filter isSuccessEvent).length = c := by
  intro nodes
  induction nodes with
  | nil =>
      intro c h
      simp [execLoop] at h
      subst h
      exact ⟨rfl, rfl⟩
  | cons n rest ih =>
      intro c h
      rw [execLoop.eq_2] at h ⊢
      rcases hp : (processNode map O n).2 with e2 | c1
      · simp only [hp] at h
        simp at h
      · simp only [hp] at h ⊢
        rcases hq : (execLoop map O rest).2 with e3 | c2
        · simp only [hq] at h
          simp at h
        · simp only [hq] at h ⊢
          simp at h
          obtain ⟨s1, s2⟩ := processNode_shape map O n c1 hp
          obtain ⟨t1, t2⟩ := ih c2 hq
          constructor
          · rw [List.filter_append, s1, t1]
            rfl
          · rw [List.filter_append, List.length_append, s2, t2]
            omega

lemma reboot_err_of_all_fail (h v : String) (o : Nat → AttemptOutcome)
    (hfail : ∀ i, i < 3 → isFailure (o i) = true) :
    (reboot_vm_on_esxi h v o).1 = Except.error (errOf (o 2)) := by
  have hlf : leadFail o 0 3 = 3 := by
    apply leadFail_of_all_fail
    intro j hj
    simpa using hfail j hj
  exact (retry_master h v o 2 0 0).2.2 hlf

/-- Claim C3: when a mapped node with a well-formed entry fails all 3
reset attempts, the final exception propagates to the executor, which
logs the node as failed with that exception, contributes 0 for it to
the success count, and processes the remaining nodes exactly as it
would have without this node in front — the batch is never aborted by
an exhausted retry. -/
theorem failed_node_recorded_and_continues (map : List (String × VmEntry))
    (O : String → Nat → AttemptOutcome) (n host vmid : String) (rest : List String)
    (hmap : map.lookup n = some ⟨some host, some vmid⟩)
    (hfail : ∀ i, i < 3 → isFailure (O n i) = true) :
    ∃ evsN e, processNode map O n = (evsN, Except.ok 0) ∧
      (reboot_vm_on_esxi host vmid (O n)).1 = Except.error e ∧
      ExecEvent.nodeFailed n e ∈ evsN ∧
      execLoop map O (n :: rest) =
        (evsN ++ (execLoop map O rest).1, (execLoop map O rest).2) := by
  have herr := reboot_err_of_all_fail host vmid (O n) hfail
  have hp := processNode_mapped_err map O n host vmid (errOf (O n 2)) hmap herr
  refine ⟨_, errOf (O n 2), hp, herr, ?_, ?_⟩
  · simp
  · rw [execLoop.eq_2]
    simp only [hp]
    rcases hq : (execLoop map O rest).2 with e2 | c2
    · simp only [hq]
    · simp only [hq]
      simp

/-- Witness for claim C3: node B mapped to a well-formed entry, every
attempt raising during command execution, followed by an unmapped
node X that is still skipped-processed. -/
theorem failed_node_recorded_and_continues_witness :
    ∃ evsN e,
      processNode [("B", VmEntry.mk (some "10.0.0.5") (some "42"))]
        (fun _ _ => AttemptOutcome.execError) "B" = (evsN, Except.ok 0) ∧
      (reboot_vm_on_esxi "10.0.0.5" "42"
        ((fun _ _ => AttemptOutcome.execError) "B")).1 = Except.error e ∧
      ExecEvent.nodeFailed "B" e ∈ evsN ∧
      execLoop [("B", VmEntry.mk (some "10.0.0.5") (some "42"))]
          (fun _ _ => AttemptOutcome.execError) ("B" :: ["X"]) =
        (evsN ++ (execLoop [("B", VmEntry.mk (some "10.0.0.5") (some "42"))]
            (fun _ _ => AttemptOutcome.execError) ["X"]).1,
         (execLoop [("B", VmEntry.mk (some "10.0.0.5") (some "42"))]
            (fun _ _ => AttemptOutcome.execError) ["X"]).2) :=
  failed_node_recorded_and_continues
    [("B", VmEntry.mk (some "10.0.0.5") (some "42"))]
    (fun _ _ => AttemptOutcome.execError) "B" "10.0.0.5" "42" ["X"]
    (by decide) (fun _ _ => rfl)

/-- Map with a malformed entry for node B (vmid field missing) and a
well-formed entry for node C. -/
def badMap : List (String × VmEntry) :=
  [("B", ⟨some "10.0.0.5", none⟩), ("C", ⟨some "10.0.0.6", some "7"⟩)]

/-- Oracle under which every remote command exits with status 0. -/
def okO : String → Nat → AttemptOutcome := fun _ _ => AttemptOutcome.exec 0 ""

/-- Claim C6 counterexample: node B is present in the map but its entry
lacks the vmid field.  The claim says the node is soft-skipped at
resolution time and the remaining nodes still processed; the code
instead raises the KeyError out of the loop: the executor emits no
events at all — nothing for B and nothing for the following mapped
node C, whose reset alone would have succeeded — and the run aborts
with the error. -/
theorem malformed_entry_counterexample :
    reboot_notready_nodes badMap okO ["B", "C"] = ([], Except.error "KeyError: vmid") ∧
    (processNode badMap okO "C").2 = Except.ok 1 := by
  constructor
  · rfl
  · rfl

/-- Claim C6 (amended): a not-ready node whose map entry is malformed
(missing management-host or vm-identifier field) is not soft-skipped:
the field access raises a KeyError that propagates out of the executor
at once, so no events are emitted, the remaining nodes are not
processed, and no summary is produced. -/
theorem malformed_entry_aborts (map : List (String × VmEntry))
    (O : String → Nat → AttemptOutcome) (n : String) (rest : List String)
    (entry : VmEntry) (hmap : map.lookup n = some entry)
    (hbad : entry.esxi_host = none ∨ entry.vmid = none) :
    ∃ e, execLoop map O (n :: rest) = ([], Except.error e) ∧
      reboot_notready_nodes map O (n :: rest) = ([], Except.error e) := by
  have hperr : ∃ e, processNode map O n = ([], Except.error e) := by
    rcases entry with ⟨eh, ev⟩
    rcases eh with _ | hh
    · exact ⟨"KeyError: esxi_host", processNode_missing_host map O n ev hmap⟩
    · rcases hbad with hb | hb
      · simp at hb
      · have hev : ev = none := hb
        subst hev
        exact ⟨"KeyError: vmid", processNode_missing_vmid map O n hh hmap⟩
  obtain ⟨e, hpe⟩ := hperr
  have hel : execLoop map O (n :: rest) = ([], Except.error e) := by
    rw [execLoop.eq_2]
    simp only [hpe]
  refine ⟨e, hel, ?_⟩
  simp only [reboot_notready_nodes, hel]

/-- Witness for the amended claim C6 at the concrete malformed map. -/
theorem malformed_entry_aborts_witness :
    ∃ e, execLoop badMap okO ("B" :: ["C"]) = ([], Except.error e) ∧
      reboot_notready_nodes badMap okO ("B" :: ["C"]) = ([], Except.error e) :=
  malformed_entry_aborts badMap okO "B" ["C"] ⟨some "10.0.0.5", none⟩
    (by decide) (Or.inr rfl)

/-- Claim C4 counterexample: invoked on the nonempty not-ready list
containing only B, whose map entry is malformed, the executor aborts
with the KeyError and emits no summary at all, so not every invocation
of the executor emits exactly one summary. -/
theorem summary_missing_counterexample :
    reboot_notready_nodes badMap okO ["B"] = ([], Except.error "KeyError: vmid") ∧
    ((reboot_notready_nodes badMap okO ["B"]).1.filter isSummary) = [] := by
  constructor
  · rfl
  · rfl

/-- Claim C4 (amended): every invocation of the executor that completes
without a malformed-entry KeyError emits exactly one summary, as its
final event, whose denominator is the length of the full not-ready
list (nodes skipped as unmapped included) and whose numerator counts
exactly the nodes whose reset succeeded. -/
theorem summary_correct (map : List (String × VmEntry))
    (O : String → Nat → AttemptOutcome) (nodes : List String)
    (evs : List ExecEvent) (c : Nat)
    (hok : reboot_notready_nodes map O nodes = (evs, Except.ok c)) :
    evs.filter isSummary = [ExecEvent.summary c nodes.length] ∧
    evs.getLast? = some (ExecEvent.summary c nodes.length) ∧
    (evs.filter isSuccessEvent).length = c := by
  rcases hq : (execLoop map O nodes).2 with e | c0
  · simp only [reboot_notready_nodes, hq] at hok
    simp at hok
  · simp only [reboot_notready_nodes, hq] at hok
    have hevs : evs = (execLoop map O nodes).1 ++ [ExecEvent.summary c0 nodes.length] := by
      have h1 := congrArg Prod.fst hok
      simpa using h1.symm
    have hc : c0 = c := by
      have h2 := congrArg Prod.snd hok
      simpa using h2
    subst hc
    obtain ⟨t1, t2⟩ := execLoop_ok map O nodes c0 hq
    refine ⟨?_, ?_, ?_⟩
    · rw [hevs, List.filter_append, t1]
      simp [isSummary]
    · rw [hevs]
      exact List.getLast?_concat _
    · rw [hevs, List.filter_append, List.length_append, t2]
      simp [isSuccessEvent]

/-- Witness for the amended claim C4: node B succeeds on the first
attempt, node D is unmapped; the summary is 1 out of 2 and is the
final event. -/
theorem summary_correct_witness :
    ((reboot_notready_nodes [("B", VmEntry.mk (some "10.0.0.5") (some "42"))] okO
        ["B", "D"]).1).filter isSummary = [ExecEvent.summary 1 2] ∧
    (((reboot_notready_nodes [("B", VmEntry.mk (some "10.0.0.5") (some "42"))] okO
        ["B", "D"]).1).filter isSuccessEvent).length = 1 :=
  ⟨(summary_correct [("B", VmEntry.mk (some "10.0.0.5") (some "42"))] okO ["B", "D"]
      _ 1 rfl).1,
   (summary_correct [("B", VmEntry.mk (some "10.0.0.5") (some "42"))] okO ["B", "D"]
      _ 1 rfl).2.2⟩

/-- Claim C7: for a not-ready node absent from the identity map the
executor logs the skip warning and contributes 0 to the success count,
never logs a reset attempt for it and never invokes the remote reset
operation for it (no remote event of that node appears anywhere in the
run trace), and processing continues with the remaining nodes with an
unchanged outcome. -/
theorem unmapped_node_soft_skip (map : List (String × VmEntry))
    (O : String → Nat → AttemptOutcome) (nodes : List String) (n : String)
    (hn : map.lookup n = none) :
    processNode map O n = ([ExecEvent.skippedUnmapped n], Except.ok 0) ∧
    (∀ h v, ExecEvent.attemptingReboot n h v ∉ (reboot_notready_nodes map O nodes).1) ∧
    (∀ ev, ExecEvent.remote n ev ∉ (reboot_notready_nodes map O nodes).1) ∧
    execLoop map O (n :: nodes) =
      (ExecEvent.skippedUnmapped n :: (execLoop map O nodes).1, (execLoop map O nodes).2) := by
  have hskip := processNode_unmapped map O n hn
  refine ⟨hskip, ?_, ?_, ?_⟩
  · intro h v hmem
    rcases reboot_notready_events map O nodes _ hmem with hin | ⟨s, t2, habs⟩
    · obtain ⟨m, _, hme⟩ := execLoop_events map O nodes _ hin
      have hnode := processNode_events_node map O m _ hme
      have hnm : n = m := by simpa [eventNode] using hnode
      subst hnm
      rw [hskip] at hme
      simp at hme
    · exact ExecEvent.noConfusion habs
  · intro ev hmem
    rcases reboot_notready_events map O nodes _ hmem with hin | ⟨s, t2, habs⟩
    · obtain ⟨m, _, hme⟩ := execLoop_events map O nodes _ hin
      have hnode := processNode_events_node map O m _ hme
      have hnm : n = m := by simpa [eventNode] using hnode
      subst hnm
      rw [hskip] at hme
      simp at hme
    · exact ExecEvent.noConfusion habs
  · rw [execLoop.eq_2]
    simp only [hskip]
    rcases hq : (execLoop map O nodes).2 with e2 | c2
    · simp only [hq]
      rfl
    · simp only [hq]
      simp

/-- Witness for claim C7: node Z is unmapped while node B is mapped
and processed. -/
theorem unmapped_node_soft_skip_witness :
    processNode [("B", VmEntry.mk (some "10.0.0.5") (some "42"))] okO "Z" =
      ([ExecEvent.skippedUnmapped "Z"], Except.ok 0) ∧
    (∀ h v, ExecEvent.attemptingReboot "Z" h v ∉
      (reboot_notready_nodes [("B", VmEntry.mk (some "10.0.0.5") (some "42"))] okO
        ["Z", "B"]).1) ∧
    (∀ ev, ExecEvent.remote "Z" ev ∉
      (reboot_notready_nodes [("B", VmEntry.mk (some "10.0.0.5") (some "42"))] okO
        ["Z", "B"]).1) ∧
    execLoop [("B", VmEntry.mk (some "10.0.0.5") (some "42"))] okO ("Z" :: ["Z", "B"]) =
      (ExecEvent.skippedUnmapped "Z" ::
        (execLoop [("B", VmEntry.mk (some "10.0.0.5") (some "42"))] okO ["Z", "B"]).1,
       (execLoop [("B", VmEntry.mk (some "10.0.0.5") (some "42"))] okO ["Z", "B"]).2) :=
  unmapped_node_soft_skip [("B", VmEntry.mk (some "10.0.0.5") (some "42"))] okO
    ["Z", "B"] "Z" (by decide)

/-- The external world of one run of `main` (lines 181-213): which
required files exist, the outcome of loading the node to VM map, of
initializing the Kubernetes client, of listing the nodes, and the
per-node per-attempt outcomes of the remote reset operation. -/
structure Env where
  kubeconfigExists : Bool
  nodeVmMapExists : Bool
  sshKeyExists : Bool
  loadNodeVmMap : Except String (List (String × VmEntry))
  initKubeClient : Except String Unit
  listNodesResult : Except String (List K8sNode)
  attempts : String → Nat → AttemptOutcome

/-- Top-level observable events of `main`: the missing-file error
(line 192), a fatal error converted from an exception (line 212), the
no-not-ready message (line 203), an executor event, and the final
completion message (line 209). -/
inductive MainEvent where
  | missingFile (path : String)
  | fatalError (msg : String)
  | noNotReadyNodes
  | execEv (e : ExecEvent)
  | completed
deriving DecidableEq, Repr

/-- Configuration path of line 184. -/
def kubeconfig_path : String := "/kube/config"

/-- Configuration path of line 185. -/
def node_vm_map_path : String := "/config/node_vm_map.json"

/-- Configuration path of line 186. -/
def ssh_key_path : String := "/secrets/id_rsa"

/-- Mirrors `main` (lines 181-213): check the three required files in
order and exit 1 at the first missing one; then load the map,
set up the client and list the nodes, converting any exception to
a fatal error with exit 1; return early with exit 0 when no node is
not ready; otherwise run the executor, whose uncaught exception is
also converted to a fatal error with exit 1, and complete with exit 0.
Returns the event trace and whether the process exited with the
failure indicator. -/
def main (env : Env) : List MainEvent × Bool :=
  if env.kubeconfigExists = false then ([MainEvent.missingFile kubeconfig_path], true)
  else if env.nodeVmMapExists = false then ([MainEvent.missingFile node_vm_map_path], true)
  else if env.sshKeyExists = false then ([MainEvent.missingFile ssh_key_path], true)
  else
    match env.loadNodeVmMap with
    | Except.error e => ([MainEvent.fatalError e], true)
    | Except.ok map =>
        match env.initKubeClient with
        | Except.error e => ([MainEvent.fatalError e], true)
        | Except.ok _ =>
            match env.listNodesResult with
            | Except.error e => ([MainEvent.fatalError e], true)
            | Except.ok nodes =>
                match get_notready_nodes nodes with
                | [] => ([MainEvent.noNotReadyNodes], false)
                | n :: rest =>
                    match (reboot_notready_nodes map env.attempts (n :: rest)).2 with
                    | Except.error e =>
                        ((reboot_notready_nodes map env.attempts (n :: rest)).1.map
                          MainEvent.execEv ++ [MainEvent.fatalError e], true)
                    | Except.ok _ =>
                        ((reboot_notready_nodes map env.attempts (n :: rest)).1.map
                          MainEvent.execEv ++ [MainEvent.completed], false)

/-- All three required input files exist. -/
def filesOk (env : Env) : Prop :=
  env.kubeconfigExists = true ∧ env.nodeVmMapExists = true ∧ env.sshKeyExists = true

/-- Whether a fallible step raised. -/
def isErrB {α : Type} : Except String α → Bool
  | Except.error _ => true
  | Except.ok _ => false

lemma reboot_isErr (map : List (String × VmEntry))
    (O : String → Nat → AttemptOutcome) (nodes : List String) :
    isErrB (reboot_notready_nodes map O nodes).2 = isErrB (execLoop map O nodes).2 := by
  rcases hq : (execLoop map O nodes).2 with e | c
  · simp [reboot_notready_nodes, hq]
  · simp [reboot_notready_nodes, hq]

lemma execLoop_ok_of_wellformed (map : List (String × VmEntry))
    (O : String → Nat → AttemptOutcome) :
    ∀ (nodes : List String),
      (∀ n, n ∈ nodes → ∀ entry, map.lookup n = some entry →
        entry.esxi_host ≠ none ∧ entry.vmid ≠ none) →
      ∃ c, (execLoop map O nodes).2 = Except.ok c := by
  intro nodes
  induction nodes with
  | nil => intro _; exact ⟨0, rfl⟩
  | cons n rest ih =>
      intro hwf
      have hpok : ∃ c1, (processNode map O n).2 = Except.ok c1 := by
        rcases hm : map.lookup n with _ | entry
        · exact ⟨0, by rw [processNode_unmapped map O n hm]⟩
        · obtain ⟨hh, hv⟩ := hwf n (List.mem_cons_self n rest) entry hm
          rcases entry with ⟨eh, ev⟩
          rcases eh with _ | h2
          · exact absurd rfl hh
          · rcases ev with _ | v2
            · exact absurd rfl hv
            · rcases hres : (reboot_vm_on_esxi h2 v2 (O n)).1 with e | b
              · exact ⟨0, by rw [processNode_mapped_err map O n h2 v2 e hm hres]⟩
              · cases b
                · exact ⟨0, by rw [processNode_mapped_noraise map O n h2 v2 hm hres]⟩
                · exact ⟨1, by rw [processNode_mapped_ok map O n h2 v2 hm hres]⟩
      obtain ⟨c1, hp⟩ := hpok
      obtain ⟨c2, hq⟩ :=
        ih (fun m hm entry he => hwf m (List.mem_cons_of_mem n hm) entry he)
      refine ⟨c1 + c2, ?_⟩
      rw [execLoop.eq_2]
      simp only [hp, hq]

/-- Claim C10: when every required file exists, startup succeeds and
the listing reports no not-ready node, the executor is never invoked:
the trace is exactly the no-not-ready message — no executor event, so
no remote session and no summary — and the run exits with the success
indicator. -/
theorem no_notready_no_exec (env : Env) (m : List (String × VmEntry))
    (ns : List K8sNode)
    (h1 : env.kubeconfigExists = true) (h2 : env.nodeVmMapExists = true)
    (h3 : env.sshKeyExists = true) (h4 : env.loadNodeVmMap = Except.ok m)
    (h5 : env.initKubeClient = Except.ok ()) (h6 : env.listNodesResult = Except.ok ns)
    (h7 : get_notready_nodes ns = []) :
    main env = ([MainEvent.noNotReadyNodes], false) ∧
    (∀ e, MainEvent.execEv e ∉ (main env).1) := by
  have hm : main env = ([MainEvent.noNotReadyNodes], false) := by
    simp [main, h1, h2, h3, h4, h5, h6, h7]
  refine ⟨hm, ?_⟩
  intro e he
  rw [hm] at he
  simp at he

/-- Environment with one healthy node and no not-ready node. -/
def envHealthy : Env :=
  ⟨true, true, true, Except.ok [], Except.ok (),
   Except.ok [⟨"A", [⟨"Ready", "True"⟩]⟩], okO⟩

/-- Witness for claim C10 at the healthy concrete environment. -/
theorem no_notready_no_exec_witness :
    main envHealthy = ([MainEvent.noNotReadyNodes], false) ∧
    (∀ e, MainEvent.execEv e ∉ (main envHealthy).1) :=
  no_notready_no_exec envHealthy [] [⟨"A", [⟨"Ready", "True"⟩]⟩]
    rfl rfl rfl rfl rfl rfl (by decide)

/-- Environment in which every required file exists, startup and
listing succeed reporting the not-ready node B, but the map entry of B
is malformed. -/
def envMalformed : Env :=
  ⟨true, true, true, Except.ok badMap, Except.ok (),
   Except.ok [⟨"B", [⟨"Ready", "False"⟩]⟩], okO⟩

/-- Claim C5 counterexample: all required files exist, the map loads,
the client starts up and node listing succeeds, yet the process
exits with the failure indicator: the malformed map entry of the
not-ready node B raises a KeyError during remediation — after listing
— which main converts to a fatal error and exit 1.  So a failure exit
is possible without a missing file and without any fatal error before
or during listing, refuting the stated equivalence. -/
theorem exit_failure_after_listing_counterexample :
    envMalformed.kubeconfigExists = true ∧ envMalformed.nodeVmMapExists = true ∧
    envMalformed.sshKeyExists = true ∧ envMalformed.loadNodeVmMap = Except.ok badMap ∧
    envMalformed.initKubeClient = Except.ok () ∧
    envMalformed.listNodesResult = Except.ok [⟨"B", [⟨"Ready", "False"⟩]⟩] ∧
    (main envMalformed).2 = true := by
  exact ⟨rfl, rfl, rfl, rfl, rfl, rfl, rfl⟩

/-- Claim C5 (amended): the process exits with the failure indicator
exactly when a required input file is missing, or a fatal error occurs
before or during node listing, or a malformed identity-map entry
raises a KeyError while processing the not-ready list; when listing
succeeds and every mapped not-ready node has a well-formed entry, the
run exits with the success indicator even if every individual
remediation fails. -/
theorem main_exit_policy (env : Env) :
    (¬ filesOk env → (main env).2 = true) ∧
    (filesOk env → isErrB env.loadNodeVmMap = true → (main env).2 = true) ∧
    (∀ m, filesOk env → env.loadNodeVmMap = Except.ok m →
      isErrB env.initKubeClient = true → (main env).2 = true) ∧
    (∀ m, filesOk env → env.loadNodeVmMap = Except.ok m →
      env.initKubeClient = Except.ok () → isErrB env.listNodesResult = true →
      (main env).2 = true) ∧
    (∀ m ns, filesOk env → env.loadNodeVmMap = Except.ok m →
      env.initKubeClient = Except.ok () → env.listNodesResult = Except.ok ns →
      ((main env).2 = true ↔
        isErrB (execLoop m env.attempts (get_notready_nodes ns)).2 = true)) ∧
    (∀ m ns, filesOk env → env.loadNodeVmMap = Except.ok m →
      env.initKubeClient = Except.ok () → env.listNodesResult = Except.ok ns →
      (∀ n, n ∈ get_notready_nodes ns → ∀ entry, m.lookup n = some entry →
        entry.esxi_host ≠ none ∧ entry.vmid ≠ none) →
      (main env).2 = false) := by
  refine ⟨?_, ?_, ?_, ?_, ?_, ?_⟩
  · intro hnf
    cases hk : env.kubeconfigExists
    · simp [main, hk]
    · cases hn : env.nodeVmMapExists
      · simp [main, hk, hn]
      · cases hs : env.sshKeyExists
        · simp [main, hk, hn, hs]
        · exact absurd ⟨hk, hn, hs⟩ hnf
  · rintro ⟨h1, h2, h3⟩ herr
    rcases henv : env.loadNodeVmMap with e | m
    · simp [main, h1, h2, h3, henv]
    · rw [henv] at herr
      simp [isErrB] at herr
  · rintro m ⟨h1, h2, h3⟩ h4 herr
    rcases henv : env.initKubeClient with e | u
    · simp [main, h1, h2, h3, h4, henv]
    · rw [henv] at herr
      simp [isErrB] at herr
  · rintro m ⟨h1, h2, h3⟩ h4 h5 herr
    rcases henv : env.listNodesResult with e | ns
    · simp [main, h1, h2, h3, h4, h5, henv]
    · rw [henv] at herr
      simp [isErrB] at herr
  · rintro m ns ⟨h1, h2, h3⟩ h4 h5 h6
    rw [← reboot_isErr m env.attempts (get_notready_nodes ns)]
    rcases hnr : get_notready_nodes ns with _ | ⟨n, rest⟩
    · simp only [main, h1, h2, h3, h4, h5, h6, hnr]
      simp [reboot_notready_nodes, execLoop, isErrB]
    · rcases hrb : (reboot_notready_nodes m env.attempts (n :: rest)).2 with e | c
      · simp only [main, h1, h2, h3, h4, h5, h6, hnr, hrb]
        simp [hrb, isErrB]
      · simp only [main, h1, h2, h3, h4, h5, h6, hnr, hrb]
        simp [hrb, isErrB]
  · rintro m ns ⟨h1, h2, h3⟩ h4 h5 h6 hwf
    rcases hnr : get_notready_nodes ns with _ | ⟨n, rest⟩
    · simp [main, h1, h2, h3, h4, h5, h6, hnr]
    · obtain ⟨c, hq⟩ := execLoop_ok_of_wellformed m env.attempts (n :: rest)
        (by rw [← hnr]; exact hwf)
      have hrb : (reboot_notready_nodes m env.attempts (n :: rest)).2 = Except.ok c := by
        simp only [reboot_notready_nodes, hq]
      simp [main, h1, h2, h3, h4, h5, h6, hnr, hrb]

/-- Map with a well-formed entry for node B only. -/
def goodMapB : List (String × VmEntry) := [("B", ⟨some "10.0.0.5", some "42"⟩)]

/-- Oracle under which every attempt raises during command execution. -/
def failO : String → Nat → AttemptOutcome := fun _ _ => AttemptOutcome.execError

/-- Environment in which listing reports the not-ready node B, whose
entry is well formed, and every reset attempt fails. -/
def envAllFail : Env :=
  ⟨true, true, true, Except.ok goodMapB, Except.ok (),
   Except.ok [⟨"B", [⟨"Ready", "False"⟩]⟩], failO⟩

/-- Witness for the amended claim C5: with all files present, listing
succeeded and every reset attempt failing, the run still exits with
the success indicator. -/
theorem main_exit_policy_witness :
    (reboot_vm_on_esxi "10.0.0.5" "42" (failO "B")).1 =
      Except.error "failed to execute command" ∧
    (main envAllFail).2 = false :=
  ⟨rfl,
   (main_exit_policy envAllFail).2.2.2.2.2 goodMapB [⟨"B", [⟨"Ready", "False"⟩]⟩]
     ⟨rfl, rfl, rfl⟩ rfl rfl rfl
     (by
       intro n hn entry he
       rw [show get_notready_nodes [⟨"B", [⟨"Ready", "False"⟩]⟩] = ["B"] from rfl] at hn
       simp at hn
       subst hn
       have he2 : (⟨some "10.0.0.5", some "42"⟩ : VmEntry) = entry := by
         apply Option.some.inj
         rw [← he]
         rfl
       subst he2
       exact ⟨by simp, by simp⟩)⟩

end Rebooter
